import Mathlib

/-!
# Verification of the Sarakari Katta publishing site (`app.py`)

Shallow embedding of the Flask application in `src/app.py`: the data model
(`users` / `posts` tables), the schema initializer `init_db`, and the route
handlers (`index`, `post`, `search`, `admin_login`, `admin`) are translated
into pure Lean functions over an explicit database state.

Modelling conventions, fixed once here:

* Timestamps (`datetime.now().isoformat()` strings) are modelled as `Nat`;
  ISO-8601 strings from one clock compare lexicographically in chronological
  order, so `ORDER BY created_at DESC` is order-by-`Nat`-descending.
* `generate_password_hash` / `check_password_hash` (werkzeug) are modelled by
  a `Hash` wrapper on the password with verification succeeding exactly on
  the generating password (salted-hash abstraction: one-way-ness is not
  needed by any claim, only the verification relation).
* Python `str.strip()` strips exactly the 29 characters on which
  `str.isspace()` holds (Unicode 6.3 and later, so all CPython 3.x):
  `\t \n \x0b \x0c \r \x1c \x1d \x1e \x1f` and space, `\x85`, `\xa0`,
  U+1680, U+2000 through U+200A, U+2028, U+2029, U+202F, U+205F and U+3000;
  `isSpaceChar` lists that exact set (U+180E is not whitespace there).
* SQLite `LIKE` on the pattern percent-q-percent is modelled by a recursive
  matcher with SQLite semantics (`%` = any sequence, `_` = any single
  character, no escape character, ASCII-only case folding). Postgres `ILIKE`
  is modelled separately, including its default backslash escape (an escaped
  character matches itself literally; a pattern ending in a lone escape
  raises an error, modelled as `none`); its case folding is locale-dependent
  on non-ASCII data, so the C7 theorems restrict to ASCII inputs, where the
  folding is the ASCII one.
* `AUTOINCREMENT` / `SERIAL` id assignment is modelled by a `nextPostId`
  counter; a freshly inserted row is appended at the end of the table list.
* A SQL query `SELECT ... ORDER BY created_at DESC LIMIT n` is modelled as
  sorting by the descending-timestamp relation and taking `n`; the tie order
  for equal timestamps is unspecified in SQL and the model fixes one
  arbitrary (insertion-sort) choice.
-/

namespace SarakariKatta

/-! ## Python `str.strip()` -/

/-- The 29 characters stripped by the Python method strip: exactly those on
which the Python predicate isspace holds (space, the nine ASCII control
whitespace characters, next line, no-break space, ogham space mark, the
en-quad through hair-space block, line and paragraph separators,
narrow no-break space, medium mathematical space, ideographic space). -/
def isSpaceChar (c : Char) : Bool :=
  c = ' ' || c = '\t' || c = '\n' || c = '\r' || c = '\x0b' || c = '\x0c' ||
  ('\x1c' ≤ c && c ≤ '\x1f') || c = '\x85' || c = '\xa0' || c = '\u1680' ||
  ('\u2000' ≤ c && c ≤ '\u200a') || c = '\u2028' || c = '\u2029' ||
  c = '\u202f' || c = '\u205f' || c = '\u3000'

/-- Drop leading whitespace characters. -/
def dropWS : List Char → List Char
  | [] => []
  | c :: cs => if isSpaceChar c then dropWS cs else c :: cs

/-- Strip leading and trailing whitespace from a character list. -/
def stripChars (l : List Char) : List Char :=
  (dropWS (dropWS l).reverse).reverse

/-- Python `s.strip()`. -/
def strip (s : String) : String :=
  String.mk (stripChars s.data)

/-! ## werkzeug password hashing (abstracted) -/

/-- Abstract salted password hash: verification succeeds exactly on the
generating password. -/
structure Hash where
  pw : String
deriving DecidableEq, Repr

/-- Model of generate_password_hash from werkzeug.security. -/
def generate_password_hash (p : String) : Hash := ⟨p⟩

/-- Model of check_password_hash from werkzeug.security. -/
def check_password_hash (h : Hash) (p : String) : Bool := h.pw == p

/-! ## Data model: the `users` and `posts` tables -/

/-- A row of the `posts` table (app.py schema, lines 124-136 / 164-176). -/
structure Post where
  id : Nat
  title : String
  category : String
  summary : String
  content : String
  official_link : String
  form_link : String
  created_at : Nat
  updated_at : Nat
deriving DecidableEq, Repr

/-- A row of the `users` table (app.py schema, lines 115-122 / 155-162). -/
structure User where
  id : Nat
  username : String
  password_hash : Hash
  created_at : Nat
deriving DecidableEq, Repr

/-- The database state: table-existence flags (`CREATE TABLE IF NOT EXISTS`),
the two tables, and the autoincrement counters. -/
structure DB where
  usersTable : Bool
  postsTable : Bool
  users : List User
  posts : List Post
  nextUserId : Nat
  nextPostId : Nat
deriving DecidableEq, Repr

/-- A database with no tables and no rows. -/
def freshDB : DB := ⟨false, false, [], [], 1, 1⟩

/-- The CATEGORIES constant from app.py lines 25-31: the five fixed (key, label) pairs. -/
def CATEGORIES : List (String × String) :=
  [("jobs", "Jobs"), ("results", "Results"), ("schemes", "Schemes"),
   ("exam_cutoffs", "Exam Cutoffs"), ("current_affairs", "Current Affairs")]

/-- The five fixed category keys `[c[0] for c in CATEGORIES]`. -/
def categoryKeys : List String := CATEGORIES.map (·.1)

/-! ## SQL query fragments -/

/-- The ORDER BY created_at DESC relation: `a` comes no later than `b` when `a` was
created no earlier. -/
def byNewest (a b : Post) : Prop := b.created_at ≤ a.created_at

instance : DecidableRel byNewest := fun a b => Nat.decLe b.created_at a.created_at

instance : IsTotal Post byNewest :=
  ⟨fun x y => (Nat.le_total y.created_at x.created_at).elim Or.inl Or.inr⟩

instance : IsTrans Post byNewest :=
  ⟨fun _ _ _ h1 h2 => Nat.le_trans h2 h1⟩

/-- Model of SELECT star FROM posts ORDER BY created_at DESC over a row list. -/
def sortDesc (ps : List Post) : List Post :=
  List.insertionSort byNewest ps

/-- Model of SELECT star FROM posts WHERE id matches, with fetchone. -/
def findPostById (db : DB) (pid : Nat) : Option Post :=
  db.posts.find? (fun p => p.id == pid)

/-- Model of SELECT star FROM users WHERE username matches, with fetchone. -/
def findUserByName (db : DB) (u : String) : Option User :=
  db.users.find? (fun r => r.username == u)

/-! ## SQL LIKE / ILIKE -/

/-- ASCII lower-casing used by SQLite LIKE (and, on ASCII, ILIKE). -/
def lowerChar (c : Char) : Char :=
  if 'A' ≤ c ∧ c ≤ 'Z' then Char.ofNat (c.toNat + 32) else c

/-- SQLite `LIKE` pattern matching: `%` matches any sequence, `_` matches any
single character, other pattern characters match ASCII-case-insensitively;
without an ESCAPE clause (the app supplies none) there is no escape
character. -/
def likeMatch : List Char → List Char → Bool
  | [], s => s.isEmpty
  | p :: ps, s =>
    if p = '%' then
      likeMatch ps s ||
        (match s with
         | [] => false
         | _ :: cs => likeMatch (p :: ps) cs)
    else
      match s with
      | [] => false
      | c :: cs =>
        if p = '_' then likeMatch ps cs
        else (lowerChar p == lowerChar c) && likeMatch ps cs
termination_by p s => p.length + s.length

/-- Model of column LIKE pattern on SQLite with parameter percent-q-percent. -/
def likeContains (q s : String) : Bool :=
  likeMatch ('%' :: (q.data ++ ['%'])) s.data

/-- The SQLite search predicate of the `/search` route:
`title LIKE %q% OR summary LIKE %q% OR content LIKE %q%`. -/
def searchHit (q : String) (p : Post) : Bool :=
  likeContains q p.title || likeContains q p.summary || likeContains q p.content

/-- Postgres `ILIKE` pattern matching with its default backslash escape, on
ASCII data (Postgres lower-cases pattern and text with the locale; on ASCII
that is the ASCII folding used here, and the C7 theorems restrict to ASCII
inputs). A backslash makes the next pattern character match itself literally;
a pattern ending in a lone backslash raises the Postgres error "LIKE pattern
must not end with escape character" when the matcher reaches it, modelled as
`none`; as in the Postgres matcher, exhausted text matches exactly a
remaining pattern of percents, without reaching a later lone escape. -/
def ilikeMatch : List Char → List Char → Option Bool
  | ps, [] => some (ps.all fun c => c == '%')
  | [], _ :: _ => some false
  | p :: ps, c :: cs =>
    if p = '\\' then
      match ps with
      | [] => none
      | e :: ps2 =>
        if lowerChar e == lowerChar c then ilikeMatch ps2 cs else some false
    else if p = '%' then
      match ilikeMatch ps (c :: cs), ilikeMatch (p :: ps) cs with
      | some b, some b2 => some (b || b2)
      | _, _ => none
    else if p = '_' then ilikeMatch ps cs
    else if lowerChar p == lowerChar c then ilikeMatch ps cs else some false
termination_by p s => p.length + s.length

/-- Model of column ILIKE pattern on Postgres with parameter
percent-q-percent; `none` is a raised pattern error. -/
def ilikeContains (q s : String) : Option Bool :=
  ilikeMatch ('%' :: (q.data ++ ['%'])) s.data

/-- The Postgres search predicate of the `/search` route:
`title ILIKE %q% OR summary ILIKE %q% OR content ILIKE %q%`; a pattern error
in any disjunct aborts the query. -/
def searchHitPg (q : String) (p : Post) : Option Bool :=
  match ilikeContains q p.title, ilikeContains q p.summary,
      ilikeContains q p.content with
  | some a, some b, some c => some (a || b || c)
  | _, _, _ => none

/-- Row-by-row evaluation of a fallible WHERE predicate: the rows satisfying
it, or `none` when the query aborts with an error. -/
def filterM (f : Post → Option Bool) : List Post → Option (List Post)
  | [] => some []
  | p :: ps =>
    match f p, filterM f ps with
    | some true, some rest => some (p :: rest)
    | some false, some rest => some rest
    | _, _ => none

/-! ## Public routes -/

/-- The `/` home route (app.py lines 277-310): the latest 12 posts overall and,
per category key, its label and latest 4 posts. Both backends issue the same
logical queries. -/
def index (db : DB) : List Post × List (String × String × List Post) :=
  ((sortDesc db.posts).take 12,
   CATEGORIES.map fun kl =>
     (kl.1, kl.2, (sortDesc (db.posts.filter (fun p => p.category == kl.1))).take 4))

/-- The `/category/<cat_key>` route (app.py lines 313-332); `none` is the 404
abort for a key outside the fixed set. -/
def category (db : DB) (cat_key : String) : Option (List Post) :=
  if ¬ categoryKeys.contains cat_key then none
  else some (sortDesc (db.posts.filter (fun p => p.category == cat_key)))

/-- The `/post/<int:post_id>` route (app.py lines 335-363); `none` is the 404
abort, otherwise the post and up to 6 related posts of the same category. -/
def post (db : DB) (post_id : Nat) : Option (Post × List Post) :=
  match findPostById db post_id with
  | none => none
  | some p =>
    some (p, (sortDesc (db.posts.filter
        (fun r => r.category == p.category && !(r.id == post_id)))).take 6)

/-- Outcome of one request to `/search`: a redirect to `/`, a result page, or
an aborted (erroring) storage query. -/
inductive SearchOutcome
  | redirectHome
  | results (posts : List Post)
  | queryError
deriving DecidableEq, Repr

/-- The `/search` route on the SQLite backend (app.py lines 366-370 and
385-395): the query string is stripped; an empty query redirects to `/`
without touching storage, otherwise the LIKE-filtered posts are returned
newest-first (SQLite LIKE never errors on the interpolated pattern). -/
def searchSqlite (db : DB) (q : String) : SearchOutcome :=
  let q := strip q
  if q = "" then SearchOutcome.redirectHome
  else SearchOutcome.results (sortDesc (db.posts.filter (searchHit q)))

/-- The `/search` route on the Postgres backend (app.py lines 366-383): the
same stripping and redirect, then the ILIKE-filtered posts newest-first; a
pattern error (query whose stripped form ends in a lone backslash) aborts the
query. -/
def searchPg (db : DB) (q : String) : SearchOutcome :=
  let q := strip q
  if q = "" then SearchOutcome.redirectHome
  else
    match filterM (searchHitPg q) db.posts with
    | none => SearchOutcome.queryError
    | some l => SearchOutcome.results (sortDesc l)

/-! ## Admin routes -/

/-- A flash message with its category, e.g. `("✅ Login successful", "success")`. -/
abbrev Flash := String × String

/-- Result of a POST to `/admin/login` (app.py lines 399-419). -/
structure LoginResult where
  session : Option String
  flash : Flash
  redirectedToAdmin : Bool
deriving DecidableEq, Repr

/-- POST `/admin/login`: strips both form fields, looks the user up by the
stripped username and verifies the stripped password against the stored hash;
on success the session holds the username, on any mismatch the session is
untouched and one generic failure message is flashed. -/
def admin_login (db : DB) (sess : Option String) (username password : String) :
    LoginResult :=
  let username := strip username
  let password := strip password
  match findUserByName db username with
  | some user =>
    if check_password_hash user.password_hash password then
      ⟨some username, ("✅ Login successful", "success"), true⟩
    else
      ⟨sess, ("❌ Invalid username/password", "error"), false⟩
  | none => ⟨sess, ("❌ Invalid username/password", "error"), false⟩

/-- The helper is_logged_in (app.py line 210): session user present and non-empty. -/
def is_logged_in (sess : Option String) : Bool :=
  !((sess.getD "") == "")

/-- The `create` form fields of the admin page. -/
structure CreateForm where
  title : String
  category : String
  summary : String
  content : String
  official_link : String
  form_link : String
deriving DecidableEq, Repr

/-- The `create` action (app.py lines 439-470): every field is stripped; title,
summary, content must be non-empty and the category in the fixed key set, else
an error flash and no insert; otherwise the row is inserted with the next id
and `created_at = updated_at = now`. -/
def adminCreate (f : CreateForm) (now : Nat) (db : DB) : DB × Flash :=
  let title := strip f.title
  let category := strip f.category
  let summary := strip f.summary
  let content := strip f.content
  let official_link := strip f.official_link
  let form_link := strip f.form_link
  if title = "" || summary = "" || content = "" || !(categoryKeys.contains category) then
    (db, ("❌ Title, Summary, Content आणि Category required", "error"))
  else
    ({db with
        posts := db.posts ++
          [⟨db.nextPostId, title, category, summary, content,
            official_link, form_link, now, now⟩],
        nextPostId := db.nextPostId + 1},
     ("✅ Post created", "success"))

/-- The `delete` action (app.py lines 472-480): a falsy (empty) `post_id` does
nothing and flashes nothing; otherwise `DELETE FROM posts WHERE id=?` with the
text form value coerced to the integer column (modelled by `String.toNat?`). -/
def adminDelete (post_id : String) (db : DB) : DB × Option Flash :=
  if post_id = "" then (db, none)
  else
    ({db with posts := db.posts.filter (fun p => !(post_id.toNat? == some p.id))},
     some ("🗑️ Post deleted", "success"))

/-- The `update_password` action (app.py lines 482-508): reject a new password
under 8 characters; otherwise verify the (unstripped) old password against the
stored hash of the session user and, on success, store the hash of the
(unstripped) new password. -/
def adminUpdatePassword (user oldp newp : String) (db : DB) : DB × Flash :=
  if newp.length < 8 then
    (db, ("❌ New password किमान 8 characters", "error"))
  else
    match findUserByName db user with
    | some u =>
      if check_password_hash u.password_hash oldp then
        ({db with users := db.users.map fun r =>
            if r.username == user then
              {r with password_hash := generate_password_hash newp}
            else r},
         ("✅ Password updated", "success"))
      else (db, ("❌ Old password wrong", "error"))
    | none => (db, ("❌ Old password wrong", "error"))

/-- A request to `/admin`: a GET, or a POST with one of the three form
actions (an unrecognized action string falls through to the rendering). -/
inductive AdminAction
  | get
  | create (form : CreateForm)
  | delete (post_id : String)
  | update_password (old_password new_password : String)
  | other
deriving DecidableEq, Repr

/-- Outcome of one request to `/admin`. -/
structure AdminResult where
  db : DB
  flash : Option Flash
  renderedPage : Bool
deriving DecidableEq, Repr

/-- The `/admin` route (app.py lines 429-516): without a logged-in session the
request redirects to the login page (`renderedPage = false`) with no state
change; otherwise the action runs and the admin page is rendered. -/
def admin (sess : Option String) (act : AdminAction) (now : Nat) (db : DB) :
    AdminResult :=
  if ¬ is_logged_in sess then ⟨db, none, false⟩
  else
    match act with
    | .get => ⟨db, none, true⟩
    | .create f =>
      let r := adminCreate f now db
      ⟨r.1, some r.2, true⟩
    | .delete pid =>
      let r := adminDelete pid db
      ⟨r.1, r.2, true⟩
    | .update_password o n =>
      let r := adminUpdatePassword (sess.getD "") o n db
      ⟨r.1, some r.2, true⟩
    | .other => ⟨db, none, true⟩

/-! ## Schema initializer -/

/-- The fallback for the `ADMIN_PASSWORD` environment variable (app.py
lines 139 and 181). -/
def defaultAdminPassword : String := "Admin@12345"

/-- The function init_db on the SQLite backend (app.py lines 154-189): create both tables
if absent, then seed the admin user only when no user named "admin" exists;
the returned flag records whether the default-admin message was printed, which
happens exactly in the seeding branch. -/
def initDbSQLite (admin_password_env : Option String) (now : Nat) (db : DB) :
    DB × Bool :=
  let db := {db with usersTable := true, postsTable := true}
  match findUserByName db "admin" with
  | some _ => (db, false)
  | none =>
    let default_pass := admin_password_env.getD defaultAdminPassword
    ({db with
        users := db.users ++
          [⟨db.nextUserId, "admin", generate_password_hash default_pass, now⟩],
        nextUserId := db.nextUserId + 1},
     true)

/-- The function init_db on the Postgres backend (app.py lines 113-152): create both
tables if absent, then `INSERT ... ON CONFLICT (username) DO NOTHING`; this
branch prints nothing, so the warning flag is always `false`. -/
def initDbPostgres (admin_password_env : Option String) (now : Nat) (db : DB) :
    DB × Bool :=
  let db := {db with usersTable := true, postsTable := true}
  match findUserByName db "admin" with
  | some _ => (db, false)
  | none =>
    let default_pass := admin_password_env.getD defaultAdminPassword
    ({db with
        users := db.users ++
          [⟨db.nextUserId, "admin", generate_password_hash default_pass, now⟩],
        nextUserId := db.nextUserId + 1},
     false)

/-- Database states reachable through the program: a startup on either backend
from an empty database, a restart on a reached state, or any `/admin` request
(the only mutating route; the public routes and `admin_login` never write). -/
inductive Reachable : DB → Prop
  | boot_sqlite (env : Option String) (now : Nat) :
      Reachable (initDbSQLite env now freshDB).1
  | boot_postgres (env : Option String) (now : Nat) :
      Reachable (initDbPostgres env now freshDB).1
  | restart_sqlite (env : Option String) (now : Nat) (db : DB) :
      Reachable db → Reachable (initDbSQLite env now db).1
  | restart_postgres (env : Option String) (now : Nat) (db : DB) :
      Reachable db → Reachable (initDbPostgres env now db).1
  | admin_step (sess : Option String) (act : AdminAction) (now : Nat) (db : DB) :
      Reachable db → Reachable (admin sess act now db).db

/-! ## Spec-side search predicate

The spec describes the search as a case-insensitive *substring* test on
title, summary and body. These definitions follow the words of the spec; they are
compared with the LIKE-based code path in the C7 theorems. -/

/-- Spec-side: case-insensitive prefix test on character lists. -/
def isPrefixCI : List Char → List Char → Bool
  | [], _ => true
  | _ :: _, [] => false
  | a :: as, b :: bs => (lowerChar a == lowerChar b) && isPrefixCI as bs

/-- Spec-side: case-insensitive occurrence of `q` at some position of the
second list. -/
def isInfixCI (q : List Char) : List Char → Bool
  | [] => isPrefixCI q []
  | c :: cs => isPrefixCI q (c :: cs) || isInfixCI q cs

/-- Spec-side: `q` occurs case-insensitively as a substring of `s`. -/
def containsCI (q s : String) : Bool := isInfixCI q.data s.data

/-- Spec-side search predicate: the query occurs as a case-insensitive
substring of the title, the summary, or the content. -/
def specHit (q : String) (p : Post) : Bool :=
  containsCI q p.title || containsCI q p.summary || containsCI q p.content

/-- Holds when `q` contains no character special in a SQL LIKE or ILIKE
pattern on either backend: the wildcards `%` and `_` and the Postgres escape
backslash. -/
def wildcardFree (q : String) : Bool :=
  q.data.all fun c => !(c == '%') && !(c == '_') && !(c == '\\')

/-- Holds for code points in the ASCII range, where SQLite LIKE folding and
the locale folding used by Postgres ILIKE agree. -/
def asciiChar (c : Char) : Bool := c.toNat < 128

/-- A string of ASCII characters. -/
def asciiString (s : String) : Bool := s.data.all asciiChar

/-- A post whose searched fields are ASCII. -/
def asciiPost (p : Post) : Bool :=
  asciiString p.title && asciiString p.summary && asciiString p.content

/-! ## Concrete fixtures used by witnesses and counterexamples -/

/-- The database produced by a first SQLite startup with `ADMIN_PASSWORD`
unset at time 0. -/
def seededDB : DB := (initDbSQLite none 0 freshDB).1

/-- Fixture post with `a_c`-shaped content. -/
def postA : Post := ⟨1, "t1", "jobs", "s1", "za_cz", "", "", 1, 1⟩

/-- Fixture post whose content contains `abc`. -/
def postB : Post := ⟨2, "t2", "jobs", "s2", "abc", "", "", 2, 2⟩

/-- Fixture database holding `postA` and `postB`. -/
def dbSearch : DB := ⟨true, true, seededDB.users, [postA, postB], 2, 3⟩

/-! ## Lemmas about `strip` -/

theorem dropWS_idem (l : List Char) : dropWS (dropWS l) = dropWS l := by
  induction l with
  | nil => rfl
  | cons c cs ih =>
    by_cases h : isSpaceChar c = true
    · simp [dropWS, h, ih]
    · simp only [Bool.not_eq_true] at h
      simp [dropWS, h]

theorem dropWS_head {l : List Char} {c : Char} {cs : List Char}
    (h : dropWS l = c :: cs) : isSpaceChar c = false := by
  induction l with
  | nil => simp [dropWS] at h
  | cons a as ih =>
    by_cases ha : isSpaceChar a = true
    · simp only [dropWS, ha, if_true] at h
      exact ih h
    · simp only [Bool.not_eq_true] at ha
      simp only [dropWS, ha, Bool.false_eq_true, if_false] at h
      cases h
      exact ha

theorem dropWS_of_head {l : List Char}
    (h : ∀ c cs, l = c :: cs → isSpaceChar c = false) : dropWS l = l := by
  cases l with
  | nil => rfl
  | cons c cs => simp [dropWS, h c cs rfl]

theorem dropWS_eq_drop (l : List Char) : ∃ k, dropWS l = l.drop k := by
  induction l with
  | nil => exact ⟨0, rfl⟩
  | cons c cs ih =>
    by_cases h : isSpaceChar c = true
    · obtain ⟨k, hk⟩ := ih
      exact ⟨k + 1, by simp [dropWS, h, hk]⟩
    · simp only [Bool.not_eq_true] at h
      exact ⟨0, by simp [dropWS, h]⟩

theorem take_head {A : List Char} {m : Nat} {c : Char} {cs : List Char}
    (h : A.take m = c :: cs) : ∃ ds, A = c :: ds := by
  cases A with
  | nil => simp at h
  | cons a as =>
    cases m with
    | zero => simp at h
    | succ m =>
      simp only [List.take_succ_cons] at h
      cases h
      exact ⟨as, rfl⟩

theorem stripChars_idem (l : List Char) : stripChars (stripChars l) = stripChars l := by
  have hA : ∀ c cs, dropWS l = c :: cs → isSpaceChar c = false :=
    fun _ _ h => dropWS_head h
  obtain ⟨k, hk⟩ := dropWS_eq_drop (dropWS l).reverse
  have hS : stripChars l = (dropWS l).take ((dropWS l).reverse.length - k) := by
    unfold stripChars
    rw [hk, List.reverse_drop, List.reverse_reverse]
  have hdropS : dropWS (stripChars l) = stripChars l := by
    apply dropWS_of_head
    intro c cs hc
    rw [hS] at hc
    obtain ⟨ds, hds⟩ := take_head hc
    exact hA c ds hds
  show (dropWS (dropWS (stripChars l)).reverse).reverse = stripChars l
  rw [hdropS]
  show (dropWS (dropWS (dropWS l).reverse).reverse.reverse).reverse = stripChars l
  rw [List.reverse_reverse, dropWS_idem]
  rfl

theorem strip_strip (s : String) : strip (strip s) = strip s := by
  show String.mk (stripChars (stripChars s.data)) = String.mk (stripChars s.data)
  rw [stripChars_idem]

/-- No string strips to a value that is not already stripped. -/
theorem strip_ne_of_not_fixed {n : String} (h : strip n ≠ n) (x : String) :
    strip x ≠ n := by
  intro hx
  apply h
  calc strip n = strip (strip x) := by rw [hx]
    _ = strip x := strip_strip x
    _ = n := hx

/-- The stored hash of an un-stripped password is never verified against any
stripped candidate. -/
theorem check_stripped_fails {n : String} (h : strip n ≠ n) (s : String) :
    check_password_hash (generate_password_hash n) (strip s) = false := by
  simp only [check_password_hash, generate_password_hash, beq_eq_false_iff_ne, ne_eq]
  intro hc
  exact strip_ne_of_not_fixed h s hc.symm

/-! ## Lemmas about ordering queries -/

/-- The result of any `ORDER BY created_at DESC` query is sorted by
non-increasing creation time. -/
theorem sortDesc_sorted (ps : List Post) : (sortDesc ps).Sorted byNewest :=
  List.sorted_insertionSort byNewest ps

theorem sortDesc_take_sorted (ps : List Post) (n : Nat) :
    ((sortDesc ps).take n).Sorted byNewest :=
  List.Pairwise.sublist (List.take_sublist n _) (sortDesc_sorted ps)

theorem length_take_le' {α : Type} (l : List α) (n : Nat) : (l.take n).length ≤ n := by
  rw [List.length_take]
  exact Nat.min_le_left _ _

theorem sortDesc_singleton (p : Post) : sortDesc [p] = [p] := rfl

/-! ## Lemmas about `find?` and the tables -/

theorem find?_append_none {α : Type} (f : α → Bool) {l1 : List α} (l2 : List α)
    (h : l1.find? f = none) : (l1 ++ l2).find? f = l2.find? f := by
  rw [List.find?_append, h, Option.none_or]

/-- After `UPDATE users SET password_hash=? WHERE username=?`, the row found
for that username is the old row with the new hash. -/
theorem find?_update_hash (users : List User) (n : String) (h : Hash) {u : User}
    (hu : users.find? (fun r => r.username == n) = some u) :
    (users.map fun r =>
        if r.username == n then {r with password_hash := h} else r).find?
      (fun r => r.username == n) = some {u with password_hash := h} := by
  induction users with
  | nil => simp at hu
  | cons a as ih =>
    by_cases ha : (a.username == n) = true
    · rw [List.find?_cons] at hu
      simp only [ha] at hu
      cases hu
      simp only [List.map_cons, ha, if_true]
      rw [List.find?_cons]
      simp [ha]
    · simp only [Bool.not_eq_true] at ha
      rw [List.find?_cons] at hu
      simp only [ha] at hu
      simp only [List.map_cons, ha, Bool.false_eq_true, if_false]
      rw [List.find?_cons]
      simp only [ha]
      exact ih hu

/-! ## LIKE patterns without wildcards are substring tests -/

theorem likeMatch_pct_nil (s : List Char) : likeMatch ['%'] s = true := by
  induction s with
  | nil => simp [likeMatch]
  | cons c cs ih => simp [likeMatch, ih]

theorem likeMatch_lit_pct {q : List Char}
    (hq : ∀ c ∈ q, (!(c == '%') && !(c == '_') && !(c == '\\')) = true) :
    ∀ s, likeMatch (q ++ ['%']) s = isPrefixCI q s := by
  induction q with
  | nil =>
    intro s
    simpa [isPrefixCI] using likeMatch_pct_nil s
  | cons a as ih =>
    intro s
    have ha := hq a (List.mem_cons_self a as)
    simp only [Bool.and_eq_true, Bool.not_eq_true', beq_eq_false_iff_ne, ne_eq] at ha
    cases s with
    | nil => simp [likeMatch, isPrefixCI, ha.1.1]
    | cons c cs =>
      simp only [List.cons_append, likeMatch, ha.1.1, if_false, ha.1.2, isPrefixCI]
      rw [ih (fun c hc => hq c (List.mem_cons_of_mem a hc)) cs]

theorem likeMatch_between {q : List Char}
    (hq : ∀ c ∈ q, (!(c == '%') && !(c == '_') && !(c == '\\')) = true) :
    ∀ s, likeMatch ('%' :: (q ++ ['%'])) s = isInfixCI q s := by
  intro s
  induction s with
  | nil =>
    simp only [likeMatch, if_true, Bool.or_false, isInfixCI]
    exact likeMatch_lit_pct hq []
  | cons c cs ih =>
    simp only [likeMatch, if_true, isInfixCI]
    rw [likeMatch_lit_pct hq (c :: cs), ih]

/-- For a wildcard-free query, the LIKE percent-q-percent test of the code
coincides with the case-insensitive substring test of the spec. -/
theorem likeContains_eq_containsCI {q : String} (hq : wildcardFree q = true)
    (s : String) : likeContains q s = containsCI q s := by
  unfold likeContains containsCI
  exact likeMatch_between (List.all_eq_true.mp hq) s.data

theorem searchHit_eq_specHit {q : String} (hq : wildcardFree q = true) (p : Post) :
    searchHit q p = specHit q p := by
  unfold searchHit specHit
  rw [likeContains_eq_containsCI hq, likeContains_eq_containsCI hq,
    likeContains_eq_containsCI hq]

/-! ## ILIKE patterns without wildcards or escapes are substring tests -/

theorem ilikeMatch_nil (ps : List Char) :
    ilikeMatch ps [] = some (ps.all fun c => c == '%') := by
  cases ps with
  | nil => rw [ilikeMatch.eq_def]
  | cons p ps => rw [ilikeMatch.eq_def]

theorem ilikeMatch_nil_cons (c : Char) (cs : List Char) :
    ilikeMatch [] (c :: cs) = some false := by
  rw [ilikeMatch.eq_def]

theorem ilikeMatch_cons_cons (p : Char) (ps : List Char) (c : Char)
    (cs : List Char) :
    ilikeMatch (p :: ps) (c :: cs) =
      (if p = '\\' then
        match ps with
        | [] => none
        | e :: ps2 =>
          if lowerChar e == lowerChar c then ilikeMatch ps2 cs else some false
      else if p = '%' then
        match ilikeMatch ps (c :: cs), ilikeMatch (p :: ps) cs with
        | some b, some b2 => some (b || b2)
        | _, _ => none
      else if p = '_' then ilikeMatch ps cs
      else if lowerChar p == lowerChar c then ilikeMatch ps cs
      else some false) := by
  rw [ilikeMatch.eq_def]

theorem ilikeMatch_pct_nil (s : List Char) : ilikeMatch ['%'] s = some true := by
  induction s with
  | nil => simp [ilikeMatch_nil]
  | cons c cs ih => simp [ilikeMatch_cons_cons, ilikeMatch_nil_cons, ih]

theorem ilikeMatch_lit_pct {q : List Char}
    (hq : ∀ c ∈ q, (!(c == '%') && !(c == '_') && !(c == '\\')) = true) :
    ∀ s, ilikeMatch (q ++ ['%']) s = some (isPrefixCI q s) := by
  induction q with
  | nil =>
    intro s
    simpa [isPrefixCI] using ilikeMatch_pct_nil s
  | cons a as ih =>
    intro s
    have ha := hq a (List.mem_cons_self a as)
    simp only [Bool.and_eq_true, Bool.not_eq_true', beq_eq_false_iff_ne, ne_eq] at ha
    cases s with
    | nil => simp [ilikeMatch_nil, isPrefixCI, ha.1.1]
    | cons c cs =>
      simp only [List.cons_append, ilikeMatch_cons_cons, ha.2, ha.1.1, ha.1.2,
        if_false, isPrefixCI]
      rw [ih (fun c hc => hq c (List.mem_cons_of_mem a hc)) cs]
      by_cases hb : (lowerChar a == lowerChar c) = true
      · simp [hb]
      · simp only [Bool.not_eq_true] at hb
        simp [hb]

theorem ilikeMatch_between {q : List Char}
    (hq : ∀ c ∈ q, (!(c == '%') && !(c == '_') && !(c == '\\')) = true) :
    ∀ s, ilikeMatch ('%' :: (q ++ ['%'])) s = some (isInfixCI q s) := by
  intro s
  induction s with
  | nil =>
    cases q with
    | nil => simp [ilikeMatch_nil, isInfixCI, isPrefixCI]
    | cons a as =>
      have ha := hq a (List.mem_cons_self a as)
      simp only [Bool.and_eq_true, Bool.not_eq_true', beq_eq_false_iff_ne,
        ne_eq] at ha
      simp [ilikeMatch_nil, isInfixCI, isPrefixCI, ha.1.1]
  | cons c cs ih =>
    simp [ilikeMatch_cons_cons, ilikeMatch_lit_pct hq (c :: cs), ih, isInfixCI]

/-- For a wildcard- and escape-free query, the Postgres ILIKE
percent-q-percent test errors on no row and coincides with the
case-insensitive substring test of the spec. -/
theorem ilikeContains_eq_containsCI {q : String} (hq : wildcardFree q = true)
    (s : String) : ilikeContains q s = some (containsCI q s) := by
  unfold ilikeContains containsCI
  exact ilikeMatch_between (List.all_eq_true.mp hq) s.data

theorem searchHitPg_eq_specHit {q : String} (hq : wildcardFree q = true)
    (p : Post) : searchHitPg q p = some (specHit q p) := by
  unfold searchHitPg specHit
  rw [ilikeContains_eq_containsCI hq, ilikeContains_eq_containsCI hq,
    ilikeContains_eq_containsCI hq]

theorem filterM_eq {f : Post → Option Bool} {g : Post → Bool} (l : List Post)
    (h : ∀ p ∈ l, f p = some (g p)) : filterM f l = some (l.filter g) := by
  induction l with
  | nil => rfl
  | cons p ps ih =>
    have hp := h p (List.mem_cons_self p ps)
    have hps := ih (fun r hr => h r (List.mem_cons_of_mem p hr))
    simp only [filterM, hp, hps]
    cases hg : g p <;> simp [List.filter_cons, hg]

/-! ## Counting and filtering -/

theorem filter_eq_singleton {α : Type} (f : α → Bool) {l : List α} {p : α}
    (hmem : p ∈ l) (hp : f p = true) (hcount : l.countP f = 1) :
    l.filter f = [p] := by
  have hlen : (l.filter f).length = 1 := by
    rw [← List.countP_eq_length_filter]
    exact hcount
  obtain ⟨a, ha⟩ := List.length_eq_one.mp hlen
  have hpin : p ∈ l.filter f := List.mem_filter.mpr ⟨hmem, hp⟩
  rw [ha, List.mem_singleton] at hpin
  rw [ha, hpin]

theorem filter_eq_nil_of_countP {α : Type} (f : α → Bool) {l : List α}
    (h : l.countP f = 0) : l.filter f = [] := by
  have hlen : (l.filter f).length = 0 := by
    rw [← List.countP_eq_length_filter]
    exact h
  exact List.length_eq_zero.mp hlen

/-! ## Facts about `init_db` -/

theorem initDbSQLite_posts (env : Option String) (now : Nat) (db : DB) :
    (initDbSQLite env now db).1.posts = db.posts := by
  simp only [initDbSQLite]
  split <;> rfl

theorem initDbPostgres_posts (env : Option String) (now : Nat) (db : DB) :
    (initDbPostgres env now db).1.posts = db.posts := by
  simp only [initDbPostgres]
  split <;> rfl

/-! # Claims -/

/-- C5: startup initialization on a fresh database creates both tables and
exactly one user row, named "admin"; a second initialization against the
resulting database adds zero rows to either table. Proved for both the
SQLite and the Postgres backend, for every `ADMIN_PASSWORD` environment
value and every pair of startup times. -/
theorem C5_init_fresh_then_idempotent (env env2 : Option String) (now now2 : Nat) :
    ((initDbSQLite env now freshDB).1.usersTable = true ∧
     (initDbSQLite env now freshDB).1.postsTable = true ∧
     (initDbSQLite env now freshDB).1.users.map (fun u => u.username) = ["admin"] ∧
     (initDbSQLite env now freshDB).1.posts = [] ∧
     (initDbSQLite env2 now2 (initDbSQLite env now freshDB).1).1.users =
       (initDbSQLite env now freshDB).1.users ∧
     (initDbSQLite env2 now2 (initDbSQLite env now freshDB).1).1.posts =
       (initDbSQLite env now freshDB).1.posts) ∧
    ((initDbPostgres env now freshDB).1.usersTable = true ∧
     (initDbPostgres env now freshDB).1.postsTable = true ∧
     (initDbPostgres env now freshDB).1.users.map (fun u => u.username) = ["admin"] ∧
     (initDbPostgres env now freshDB).1.posts = [] ∧
     (initDbPostgres env2 now2 (initDbPostgres env now freshDB).1).1.users =
       (initDbPostgres env now freshDB).1.users ∧
     (initDbPostgres env2 now2 (initDbPostgres env now freshDB).1).1.posts =
       (initDbPostgres env now freshDB).1.posts) := by
  simp [initDbSQLite, initDbPostgres, freshDB, findUserByName]

/-- C6: for every database state, the home digest holds at most 12 posts
overall and at most 4 posts in each category block, and the overall list and
every block are ordered by descending creation time (the spec leaves the
order of equal timestamps undefined, so the ordering is the non-strict
newest-first one). -/
theorem C6_home_digest_bounds (db : DB) :
    (index db).1.length ≤ 12 ∧ (index db).1.Sorted byNewest ∧
    (index db).2.Forall
      (fun blk => blk.2.2.length ≤ 4 ∧ blk.2.2.Sorted byNewest) := by
  refine ⟨length_take_le' _ _, sortDesc_take_sorted _ _, ?_⟩
  rw [List.forall_iff_forall_mem]
  intro blk hblk
  simp only [index, List.mem_map] at hblk
  obtain ⟨kl, _, rfl⟩ := hblk
  exact ⟨length_take_le' _ _, sortDesc_take_sorted _ _⟩

/-- C10: every post row ever inserted carries `created_at = updated_at`, and
no reachable program step mutates a posts row after insertion, so the
equality is an invariant of every reachable database state. -/
theorem C10_created_eq_updated (db : DB) (h : Reachable db) :
    ∀ p ∈ db.posts, p.created_at = p.updated_at := by
  induction h with
  | boot_sqlite env now =>
    intro p hp
    rw [initDbSQLite_posts] at hp
    simp [freshDB] at hp
  | boot_postgres env now =>
    intro p hp
    rw [initDbPostgres_posts] at hp
    simp [freshDB] at hp
  | restart_sqlite env now db hdb ih =>
    intro p hp
    rw [initDbSQLite_posts] at hp
    exact ih p hp
  | restart_postgres env now db hdb ih =>
    intro p hp
    rw [initDbPostgres_posts] at hp
    exact ih p hp
  | admin_step sess act now db hdb ih =>
    intro p hp
    by_cases hl : is_logged_in sess = true
    · simp only [admin, hl, not_true, if_neg, if_false] at hp
      cases act with
      | get => exact ih p hp
      | other => exact ih p hp
      | create f =>
        simp only [adminCreate] at hp
        split at hp
        · exact ih p hp
        · simp only [List.mem_append, List.mem_singleton] at hp
          rcases hp with hp | hp
          · exact ih p hp
          · rw [hp]
      | delete pid =>
        simp only [adminDelete] at hp
        split at hp
        · exact ih p hp
        · simp only [List.mem_filter] at hp
          exact ih p hp.1
      | update_password o n =>
        simp only [adminUpdatePassword] at hp
        split at hp
        · exact ih p hp
        · split at hp <;> first
            | exact ih p hp
            | (split at hp <;> exact ih p hp)
    · simp only [admin, hl, if_pos, if_true] at hp
      exact ih p hp

/-- C1 (amended): for every create submission whose title, summary and content
are non-empty after trimming and whose trimmed category is one of the five
fixed keys, made through `/admin` with a logged-in session, creation succeeds
and the post is immediately retrievable by its id with every submitted field
preserved up to whitespace trimming (the route strips each field before
insertion, so fields are preserved verbatim exactly when already trimmed). -/
theorem C1_create_retrievable_stripped (sess : Option String) (f : CreateForm)
    (now : Nat) (db : DB)
    (hauth : is_logged_in sess = true)
    (ht : ¬ strip f.title = "") (hs : ¬ strip f.summary = "")
    (hc : ¬ strip f.content = "")
    (hcat : categoryKeys.contains (strip f.category) = true)
    (hid : ∀ p ∈ db.posts, p.id ≠ db.nextPostId) :
    (admin sess (AdminAction.create f) now db).flash =
      some ("✅ Post created", "success") ∧
    (post (admin sess (AdminAction.create f) now db).db db.nextPostId).map
        Prod.fst =
      some ⟨db.nextPostId, strip f.title, strip f.category, strip f.summary,
        strip f.content, strip f.official_link, strip f.form_link, now, now⟩ := by
  have hnone : db.posts.find? (fun p => p.id == db.nextPostId) = none :=
    List.find?_eq_none.mpr fun x hx => by simp [hid x hx]
  simp only [admin, hauth, not_true, if_neg, if_false]
  simp only [adminCreate, ht, hs, hc, hcat, decide_False, Bool.false_or,
    Bool.not_true, Bool.or_false, Bool.false_eq_true, if_false]
  refine ⟨trivial, ?_⟩
  simp only [post, findPostById]
  rw [find?_append_none _ _ hnone]
  simp [List.find?]

/-- C1 counterexample: a create submission with the non-empty title `"a "`,
category `"jobs"`, summary `"b"`, content `"c"` succeeds, but the post
retrieved by its id carries the title `"a"`, not the submitted `"a "`: the
fields are not preserved verbatim. -/
theorem C1_counterexample_not_verbatim :
    (("a " : String) ≠ "" ∧ ("b" : String) ≠ "" ∧ ("c" : String) ≠ "" ∧
      categoryKeys.contains "jobs" = true) ∧
    (admin (some "admin") (AdminAction.create ⟨"a ", "jobs", "b", "c", "", ""⟩)
        3 seededDB).flash = some ("✅ Post created", "success") ∧
    (post (admin (some "admin")
        (AdminAction.create ⟨"a ", "jobs", "b", "c", "", ""⟩) 3 seededDB).db
        1).map (fun pr => pr.1.title) = some "a" ∧
    ("a" : String) ≠ "a " := by decide

/-- C1 witness: the amended theorem applied to a concrete trimmed submission
against the freshly seeded database. -/
theorem C1_create_witness :
    (admin (some "admin") (AdminAction.create ⟨"T", "jobs", "S", "C", "", ""⟩)
        3 seededDB).flash = some ("✅ Post created", "success") ∧
    (post (admin (some "admin")
        (AdminAction.create ⟨"T", "jobs", "S", "C", "", ""⟩) 3 seededDB).db
        seededDB.nextPostId).map Prod.fst =
      some ⟨seededDB.nextPostId, strip "T", strip "jobs", strip "S", strip "C",
        strip "", strip "", 3, 3⟩ :=
  C1_create_retrievable_stripped (some "admin") ⟨"T", "jobs", "S", "C", "", ""⟩
    3 seededDB (by decide) (by decide) (by decide) (by decide) (by decide)
    (by decide)

/-- C3 (amended): for every create submission in which title, summary or
content is empty after trimming, or whose trimmed category is not one of the
five fixed keys, the request leaves the database unchanged (no row inserted),
flashes the validation error message, and still renders the admin page. -/
theorem C3_invalid_create_rejected (sess : Option String) (f : CreateForm)
    (now : Nat) (db : DB)
    (hauth : is_logged_in sess = true)
    (hbad : strip f.title = "" ∨ strip f.summary = "" ∨ strip f.content = "" ∨
      categoryKeys.contains (strip f.category) = false) :
    admin sess (AdminAction.create f) now db =
      ⟨db, some ("❌ Title, Summary, Content आणि Category required", "error"),
        true⟩ := by
  simp only [admin, hauth, not_true, if_neg, if_false]
  rcases hbad with h | h | h | h
  · simp [adminCreate, h]
  · simp [adminCreate, h]
  · simp [adminCreate, h]
  · have h' : strip f.category ∉ categoryKeys := by simpa using h
    simp [adminCreate, h']

/-- C3 counterexample: a submission whose raw category `" jobs"` is not one of
the five fixed keys nevertheless inserts a row (the route trims the category
before the membership check), with a success flash instead of a validation
error. -/
theorem C3_counterexample_untrimmed_category :
    categoryKeys.contains " jobs" = false ∧
    (admin (some "admin") (AdminAction.create ⟨"t", " jobs", "s", "c", "", ""⟩)
        3 seededDB).db.posts.length = seededDB.posts.length + 1 ∧
    (admin (some "admin") (AdminAction.create ⟨"t", " jobs", "s", "c", "", ""⟩)
        3 seededDB).flash = some ("✅ Post created", "success") := by decide

/-- C3 witness: the amended theorem applied to a concrete submission with an
all-whitespace title. -/
theorem C3_invalid_create_witness :
    admin (some "admin") (AdminAction.create ⟨"  ", "jobs", "s", "c", "", ""⟩)
        3 seededDB =
      ⟨seededDB,
        some ("❌ Title, Summary, Content आणि Category required", "error"),
        true⟩ :=
  C3_invalid_create_rejected (some "admin") ⟨"  ", "jobs", "s", "c", "", ""⟩
    3 seededDB (by decide) (Or.inl (by decide))

/-- C2 (amended): a new password under 8 characters is rejected with no state
change; with a valid length, a missing user or an old password that does not
verify yields the auth-error flash with no state change; otherwise the stored
hash is replaced so that the new password verifies against it and, provided
the new password differs from the old, the old password no longer does. -/
theorem C2_change_password (db : DB) (user oldp newp : String) :
    (newp.length < 8 →
      adminUpdatePassword user oldp newp db =
        (db, ("❌ New password किमान 8 characters", "error"))) ∧
    (¬ newp.length < 8 →
      (findUserByName db user = none →
        adminUpdatePassword user oldp newp db =
          (db, ("❌ Old password wrong", "error"))) ∧
      (∀ u, findUserByName db user = some u →
        check_password_hash u.password_hash oldp = false →
        adminUpdatePassword user oldp newp db =
          (db, ("❌ Old password wrong", "error"))) ∧
      (∀ u, findUserByName db user = some u →
        check_password_hash u.password_hash oldp = true →
        (adminUpdatePassword user oldp newp db).2 =
          ("✅ Password updated", "success") ∧
        ∃ u', findUserByName (adminUpdatePassword user oldp newp db).1 user =
            some u' ∧
          check_password_hash u'.password_hash newp = true ∧
          (oldp ≠ newp →
            check_password_hash u'.password_hash oldp = false))) := by
  constructor
  · intro h
    simp [adminUpdatePassword, h]
  · intro h8
    refine ⟨?_, ?_, ?_⟩
    · intro hnone
      simp [adminUpdatePassword, h8, hnone]
    · intro u hu hchk
      simp [adminUpdatePassword, h8, hu, hchk]
    · intro u hu hchk
      have hres : adminUpdatePassword user oldp newp db =
          ({db with users := db.users.map fun r =>
              if r.username == user then
                {r with password_hash := generate_password_hash newp}
              else r},
            ("✅ Password updated", "success")) := by
        simp [adminUpdatePassword, h8, hu, hchk]
      rw [hres]
      refine ⟨rfl, {u with password_hash := generate_password_hash newp}, ?_, ?_, ?_⟩
      · exact find?_update_hash db.users user (generate_password_hash newp) hu
      · simp [check_password_hash, generate_password_hash]
      · intro hne
        simp only [check_password_hash, generate_password_hash,
          beq_eq_false_iff_ne, ne_eq]
        intro hh
        exact hne hh.symm

/-- C2 counterexample: changing the password to the very password already in
force succeeds, and afterwards the old password (equal to the new) still
authenticates — "the old password no longer does" fails as stated. -/
theorem C2_counterexample_same_password :
    (adminUpdatePassword "admin" "Admin@12345" "Admin@12345" seededDB).2 =
      ("✅ Password updated", "success") ∧
    ((adminUpdatePassword "admin" "Admin@12345" "Admin@12345" seededDB).1.users.map
      (fun u => check_password_hash u.password_hash "Admin@12345")) = [true] := by
  decide

/-- C2 witness: the amended theorem applied to a concrete valid change of the
seeded admin password. -/
theorem C2_change_password_witness :
    (adminUpdatePassword "admin" "Admin@12345" "NewPass1234" seededDB).2 =
      ("✅ Password updated", "success") ∧
    findUserByName (adminUpdatePassword "admin" "Admin@12345" "NewPass1234"
        seededDB).1 "admin" = some ⟨1, "admin", ⟨"NewPass1234"⟩, 0⟩ := by
  have h := ((C2_change_password seededDB "admin" "Admin@12345" "NewPass1234").2
      (by decide)).2.2 ⟨1, "admin", ⟨"Admin@12345"⟩, 0⟩ (by decide) (by decide)
  exact ⟨h.1, by decide⟩

/-- Setting the table flags does not change the user rows found. -/
theorem findUserByName_setTables (db : DB) (n : String) :
    findUserByName {db with usersTable := true, postsTable := true} n =
      findUserByName db n := rfl

/-- C4 (amended): a startup message is printed only on the SQLite backend and
exactly at a startup that has to seed the admin user, regardless of whether
the password in effect is the weak default; the Postgres backend never emits a
warning; on both backends an existing admin row is never auto-rotated. -/
theorem C4_warning_behaviour (env : Option String) (now : Nat) (db : DB) :
    (initDbPostgres env now db).2 = false ∧
    ((initDbSQLite env now db).2 = true ↔ findUserByName db "admin" = none) ∧
    (∀ u, findUserByName db "admin" = some u →
      (initDbSQLite env now db).1.users = db.users ∧
      (initDbPostgres env now db).1.users = db.users) := by
  refine ⟨?_, ?_, ?_⟩
  · simp only [initDbPostgres]
    split <;> rfl
  · cases h : findUserByName db "admin" with
    | none => simp [initDbSQLite, findUserByName_setTables, h]
    | some u => simp [initDbSQLite, findUserByName_setTables, h]
  · intro u hu
    constructor
    · simp [initDbSQLite, findUserByName_setTables, hu]
    · simp [initDbPostgres, findUserByName_setTables, hu]

/-- C4 counterexample: a Postgres startup against a fresh database with
`ADMIN_PASSWORD` unset leaves the known weak default password in effect for
the admin user, yet emits no warning. -/
theorem C4_counterexample_postgres_silent :
    ((initDbPostgres none 0 freshDB).1.users.map
      (fun u => check_password_hash u.password_hash defaultAdminPassword)) =
        [true] ∧
    (initDbPostgres none 0 freshDB).2 = false := by decide

/-- C4 witness: the amended theorem applied to a database whose admin row
already exists: no backend rotates the stored hash. -/
theorem C4_warning_witness :
    (initDbSQLite (some "Str0ngPass!") 5 seededDB).1.users = seededDB.users ∧
    (initDbPostgres none 5 seededDB).1.users = seededDB.users := by
  have h1 := (C4_warning_behaviour (some "Str0ngPass!") 5 seededDB).2.2
    ⟨1, "admin", ⟨"Admin@12345"⟩, 0⟩ (by decide)
  have h2 := (C4_warning_behaviour none 5 seededDB).2.2
    ⟨1, "admin", ⟨"Admin@12345"⟩, 0⟩ (by decide)
  exact ⟨h1.1, h2.2⟩

/-- C7 (amended): on both backends an empty (or all-whitespace) query
redirects to the home route without querying storage; for a non-empty
stripped ASCII query containing no character special in a LIKE/ILIKE pattern
(`%`, `_`, or the Postgres escape backslash), over posts with ASCII searched
fields (where both backends fold case identically), a stripped query that
occurs case-insensitively in the title, summary or content of exactly one
post returns exactly that post, and one that occurs in none returns the
empty result set. -/
theorem C7_search_behaviour (db : DB) (q : String) (p : Post) :
    (strip q = "" → searchSqlite db q = SearchOutcome.redirectHome ∧
      searchPg db q = SearchOutcome.redirectHome) ∧
    (¬ strip q = "" → wildcardFree (strip q) = true →
      asciiString (strip q) = true → db.posts.all asciiPost = true →
      ((p ∈ db.posts → specHit (strip q) p = true →
          db.posts.countP (fun r => specHit (strip q) r) = 1 →
          searchSqlite db q = SearchOutcome.results [p] ∧
          searchPg db q = SearchOutcome.results [p]) ∧
        (db.posts.countP (fun r => specHit (strip q) r) = 0 →
          searchSqlite db q = SearchOutcome.results [] ∧
          searchPg db q = SearchOutcome.results []))) := by
  constructor
  · intro h
    exact ⟨by simp [searchSqlite, h], by simp [searchPg, h]⟩
  · intro hne hwf hqa hpa
    have hsq : searchSqlite db q =
        SearchOutcome.results (sortDesc (db.posts.filter (searchHit (strip q)))) := by
      simp [searchSqlite, hne]
    have hfil : filterM (searchHitPg (strip q)) db.posts =
        some (db.posts.filter fun r => specHit (strip q) r) :=
      filterM_eq db.posts (fun r _ => searchHitPg_eq_specHit hwf r)
    have hpg : searchPg db q =
        SearchOutcome.results
          (sortDesc (db.posts.filter fun r => specHit (strip q) r)) := by
      simp [searchPg, hne, hfil]
    have hfeq : db.posts.filter (searchHit (strip q)) =
        db.posts.filter (fun r => specHit (strip q) r) :=
      List.filter_congr (fun a _ => searchHit_eq_specHit hwf a)
    constructor
    · intro hmem hp hcount
      rw [hsq, hpg, hfeq, filter_eq_singleton _ hmem hp hcount,
        sortDesc_singleton]
      exact ⟨rfl, rfl⟩
    · intro hcount
      rw [hsq, hpg, hfeq, filter_eq_nil_of_countP _ hcount]
      exact ⟨rfl, rfl⟩

/-- C7 counterexample: the substring `"a_c"` occurs case-insensitively in
exactly one post of `dbSearch` (`postA`), but because `_` is a LIKE wildcard
the route returns both posts, not exactly that post. -/
theorem C7_counterexample_wildcard :
    (strip "a_c" = "a_c" ∧
      dbSearch.posts.countP (fun r => specHit "a_c" r) = 1 ∧
      specHit "a_c" postA = true ∧ postA ∈ dbSearch.posts) ∧
    searchSqlite dbSearch "a_c" = SearchOutcome.results [postB, postA] ∧
    SearchOutcome.results [postB, postA] ≠ SearchOutcome.results [postA] := by
  refine ⟨by decide, ?_, by decide⟩
  show searchSqlite dbSearch "a_c" = SearchOutcome.results [postB, postA]
  simp only [searchSqlite, dbSearch, postA, postB, seededDB, initDbSQLite,
    freshDB, findUserByName]
  simp +decide [strip, stripChars, dropWS, isSpaceChar, searchHit, likeContains,
    likeMatch, lowerChar, sortDesc, List.insertionSort, List.orderedInsert,
    List.filter, byNewest]

/-- C7 witness: the amended theorem applied to an all-whitespace query and to
the wildcard-free, mixed-case query `"aBc"` matching exactly `postB`, on both
backends. -/
theorem C7_search_witness :
    (searchSqlite dbSearch "   " = SearchOutcome.redirectHome ∧
      searchPg dbSearch "   " = SearchOutcome.redirectHome) ∧
    (searchSqlite dbSearch "aBc" = SearchOutcome.results [postB] ∧
      searchPg dbSearch "aBc" = SearchOutcome.results [postB]) := by
  refine ⟨(C7_search_behaviour dbSearch "   " postB).1 (by decide), ?_⟩
  exact (((C7_search_behaviour dbSearch "aBc" postB).2 (by decide) (by decide)
    (by decide) (by decide)).1 (by decide) (by decide) (by decide))

/-- C8: a login attempt whose (stripped) username matches no user row, and one
whose password fails verification against the hash of the found row leave the
session unchanged and flash the identical generic failure message; a correct
pair establishes a session holding the username. -/
theorem C8_login_generic_failure (db : DB) (sess : Option String)
    (username password : String) :
    (findUserByName db (strip username) = none →
      admin_login db sess username password =
        ⟨sess, ("❌ Invalid username/password", "error"), false⟩) ∧
    (∀ u, findUserByName db (strip username) = some u →
      check_password_hash u.password_hash (strip password) = false →
      admin_login db sess username password =
        ⟨sess, ("❌ Invalid username/password", "error"), false⟩) ∧
    (∀ u, findUserByName db (strip username) = some u →
      check_password_hash u.password_hash (strip password) = true →
      admin_login db sess username password =
        ⟨some (strip username), ("✅ Login successful", "success"), true⟩) := by
  refine ⟨?_, ?_, ?_⟩
  · intro h
    simp [admin_login, h]
  · intro u hu hchk
    simp [admin_login, hu, hchk]
  · intro u hu hchk
    simp [admin_login, hu, hchk]

/-- C8 witness: the theorem applied to an unknown user, a wrong password, and
a correct pair (with surrounding whitespace stripped by the route). -/
theorem C8_login_witness :
    admin_login seededDB none "nobody" "whatever" =
      ⟨none, ("❌ Invalid username/password", "error"), false⟩ ∧
    admin_login seededDB none "admin" "wrongpass" =
      ⟨none, ("❌ Invalid username/password", "error"), false⟩ ∧
    admin_login seededDB none " admin " " Admin@12345 " =
      ⟨some "admin", ("✅ Login successful", "success"), true⟩ := by
  refine ⟨(C8_login_generic_failure seededDB none "nobody" "whatever").1
      (by decide), ?_, ?_⟩
  · exact (C8_login_generic_failure seededDB none "admin" "wrongpass").2.1
      ⟨1, "admin", ⟨"Admin@12345"⟩, 0⟩ (by decide) (by decide)
  · exact (C8_login_generic_failure seededDB none " admin " " Admin@12345 ").2.2
      ⟨1, "admin", ⟨"Admin@12345"⟩, 0⟩ (by decide) (by decide)

/-- C9: the login route verifies the whitespace-stripped submitted password
while the password-change action hashes the raw new password; hence after a
successful change the stored hash is the hash of the raw new password, a new
password differing from its stripped form can never be verified by the login
route for any submitted string, and a new password equal to its stripped form
round-trips: changing and then logging in with it succeeds. -/
theorem C9_strip_mismatch (db : DB) (sess : Option String)
    (user oldp newp : String)
    (hsucc : (adminUpdatePassword user oldp newp db).2 =
      ("✅ Password updated", "success")) :
    (∃ u', findUserByName (adminUpdatePassword user oldp newp db).1 user =
        some u' ∧ u'.password_hash = generate_password_hash newp) ∧
    (¬ strip newp = newp → strip user = user →
      ∀ s, admin_login (adminUpdatePassword user oldp newp db).1 sess user s =
        ⟨sess, ("❌ Invalid username/password", "error"), false⟩) ∧
    (strip newp = newp → strip user = user →
      admin_login (adminUpdatePassword user oldp newp db).1 sess user newp =
        ⟨some user, ("✅ Login successful", "success"), true⟩) := by
  by_cases h8 : newp.length < 8
  · exfalso
    simp [adminUpdatePassword, h8] at hsucc
  cases hfind : findUserByName db user with
  | none =>
    exfalso
    simp [adminUpdatePassword, h8, hfind] at hsucc
  | some u =>
    by_cases hchk : check_password_hash u.password_hash oldp = true
    swap
    · exfalso
      simp only [Bool.not_eq_true] at hchk
      simp [adminUpdatePassword, h8, hfind, hchk] at hsucc
    have hres : (adminUpdatePassword user oldp newp db).1 =
        {db with users := db.users.map fun r =>
            if r.username == user then
              {r with password_hash := generate_password_hash newp}
            else r} := by
      simp [adminUpdatePassword, h8, hfind, hchk]
    have hfind' : findUserByName (adminUpdatePassword user oldp newp db).1 user =
        some {u with password_hash := generate_password_hash newp} := by
      rw [hres]
      exact find?_update_hash db.users user (generate_password_hash newp) hfind
    refine ⟨⟨{u with password_hash := generate_password_hash newp}, hfind', rfl⟩,
      ?_, ?_⟩
    · intro hns hus s
      have hfail := check_stripped_fails hns s
      simp [admin_login, hus, hfind', hfail]
    · intro hn hus
      have hok : check_password_hash (generate_password_hash newp) (strip newp) =
          true := by
        simp [check_password_hash, generate_password_hash, hn]
      simp [admin_login, hus, hfind', hok]

/-- C9 witness: changing the seeded admin password to `" NewPass123"` (leading
space) locks the account out even for the exact new password, while the
trimmed `"NewPass123"` round-trips. -/
theorem C9_strip_mismatch_witness :
    admin_login (adminUpdatePassword "admin" "Admin@12345" " NewPass123"
        seededDB).1 none "admin" " NewPass123" =
      ⟨none, ("❌ Invalid username/password", "error"), false⟩ ∧
    admin_login (adminUpdatePassword "admin" "Admin@12345" "NewPass123"
        seededDB).1 none "admin" "NewPass123" =
      ⟨some "admin", ("✅ Login successful", "success"), true⟩ := by
  refine ⟨(C9_strip_mismatch seededDB none "admin" "Admin@12345" " NewPass123"
      (by decide)).2.1 (by decide) (by decide) " NewPass123", ?_⟩
  exact (C9_strip_mismatch seededDB none "admin" "Admin@12345" "NewPass123"
    (by decide)).2.2 (by decide) (by decide)

/-- C10 witness: the invariant applied to the post created by one admin
request after an SQLite startup. -/
theorem C10_created_eq_updated_witness :
    (⟨1, "T", "jobs", "S", "C", "", "", 7, 7⟩ : Post).created_at =
      (⟨1, "T", "jobs", "S", "C", "", "", 7, 7⟩ : Post).updated_at :=
  C10_created_eq_updated
    (admin (some "admin") (AdminAction.create ⟨"T", "jobs", "S", "C", "", ""⟩)
      7 seededDB).db
    (Reachable.admin_step _ _ _ _ (Reachable.boot_sqlite none 0))
    ⟨1, "T", "jobs", "S", "C", "", "", 7, 7⟩ (by decide)

end SarakariKatta
